import Mathlib

/-
Shallow embedding of `src/app/main.py` (Basic Local AI): the conversation
log (`load_conversations`, `save_conversations`, `add_conversation`) and the
HTTP handlers (`generate_text`, `get_conversations`, `get_conversation`).

File-system effects are made explicit: a `FileState` value stands for the
content of `/data/conversations.json`, and every operation that touches the
file takes the current state and returns the new one.  The nondeterministic
inputs of the Python code (the request body, the clock, the backend reply,
and whether the write to disk succeeds) are passed as parameters.
-/

namespace BasicLocalAI

/-- Default value of the `MODEL_NAME` environment option (`main.py` line 9);
the environment override is configuration, not behaviour, so the default
stands for the configured identifier throughout. -/
def MODEL_NAME : String := "llama3.2:3b"

/-- One stored conversation, the dict built in `add_conversation`
(`main.py` lines 45-52).  Python string length counts characters, as
`String.length` does. -/
structure ConversationRecord where
  id : Nat
  timestamp : String
  prompt : String
  response : String
  model : String
  response_length : Nat
deriving Repr, DecidableEq

/-- State of the storage file `/data/conversations.json`.
`absent`: `os.path.exists` is false; `unreadable`: `open`/`read` raises;
`malformed`: `json.load` raises on the content; `stored l`: the file holds
a JSON array encoding the records `l`. -/
inductive FileState where
  | absent
  | unreadable
  | malformed
  | stored (records : List ConversationRecord)
deriving Repr, DecidableEq

/-- `load_conversations` (`main.py` lines 21-29): returns the parsed list
when the file exists and parses; in every failure case the exception is
caught (or the existence check fails) and `[]` is returned. -/
def load_conversations : FileState → List ConversationRecord
  | .stored records => records
  | _ => []

/-- `save_conversations` (`main.py` lines 31-39): rewrites the whole file
with the given list and returns `True`, or catches the write error and
returns `False`.  `writeOk` is the nondeterministic success of the write;
on failure the resulting on-disk content is left as it was (the claims
never inspect the file after a failed write). -/
def save_conversations (conversations : List ConversationRecord)
    (fs : FileState) (writeOk : Bool) : FileState × Bool :=
  if writeOk then (.stored conversations, true) else (fs, false)

/-- The id-reassignment loop of `add_conversation` (`main.py` lines 59-61):
`for i, conv in enumerate(conversations): conv["id"] = i + 1`. -/
def renumber (conversations : List ConversationRecord) : List ConversationRecord :=
  conversations.enum.map (fun p => { p.2 with id := p.1 + 1 })

/-- The dict built in `add_conversation` (`main.py` lines 45-52), with `n`
the length of the loaded list: `id = n + 1`, and `response_length` the
character count of `response` at the time of the write. -/
def new_record (prompt response model_name timestamp : String) (n : Nat) :
    ConversationRecord :=
  { id := n + 1
    timestamp := timestamp
    prompt := prompt
    response := response
    model := model_name
    response_length := response.length }

/-- `add_conversation` (`main.py` lines 41-68): load, build the new record
with `id = len + 1` and the caller's clock value `timestamp`, append, trim
to the last 100 and renumber when the length exceeds 100, save; return the
new record on success and `None` on a failed save.  The Python return value
`conversation` is the very dict object sitting at the end of the list, so
after the in-place renumbering it carries the renumbered id: we model it as
the last element of the final list. -/
def add_conversation (prompt response model_name timestamp : String)
    (fs : FileState) (writeOk : Bool) :
    Option ConversationRecord × FileState :=
  let conversations := load_conversations fs
  let conversation : ConversationRecord :=
    new_record prompt response model_name timestamp conversations.length
  let conversations := conversations ++ [conversation]
  let conversations :=
    if conversations.length > 100 then
      renumber (conversations.drop (conversations.length - 100))
    else conversations
  match save_conversations conversations fs writeOk with
  | (fs2, true) => (conversations.getLast?, fs2)
  | (fs2, false) => (none, fs2)

/-- Outcome of `requests.post(url, json=payload, timeout=180)` followed by
`response.json().get("response", "")` in the 200 case.
`transportError m`: `requests.post` raises (timeout, connection error) with
message `m`.  `httpResponse status body`: an HTTP reply arrived with the
given status; `body = .error m` means `response.json()` raises `m`
(malformed payload; only evaluated when the status is 200),
`body = .ok f` means the body parsed and `f` is its `response` field
(`none` when the field is missing). -/
inductive BackendOutcome where
  | transportError (message : String)
  | httpResponse (status : Nat) (body : Except String (Option String))
deriving Repr

/-- The JSON document returned by the `/generate` handler together with the
HTTP status Flask sends: `success` is the 200 body of `main.py` lines
113-118 (`conversation_id` is `null` when storage failed), `error` is the
`(jsonify(...), 500)` bodies of lines 120-123 and 127-130. -/
inductive GenerateReply where
  | success (generated_text : String) (model : String)
      (conversation_id : Option Nat)
  | error (httpStatus : Nat) (message : String)
deriving Repr, DecidableEq

/-- The placeholder of `data.get('prompt', 'Hello, how are you?')`
(`main.py` line 87). -/
def default_prompt : String := "Hello, how are you?"

/-- Python's `str.strip()` (no argument): remove leading and trailing
whitespace characters. -/
def pyStrip (s : String) : String :=
  ⟨(((s.data.dropWhile Char.isWhitespace).reverse).dropWhile
      Char.isWhitespace).reverse⟩

/-- `data.get('prompt', default)` (`main.py` lines 86-87): `reqPrompt` is
the request's `prompt` field, `none` when the field is missing (or the
body is empty, which `request.get_json() or {}` turns into `{}`).  Python's
`dict.get` returns the default only for a missing key: a present empty
string is returned as is. -/
def effective_prompt (reqPrompt : Option String) : String :=
  reqPrompt.getD default_prompt

/-- `generate_text`, the POST `/generate` handler (`main.py` lines 82-130).
`backend` maps the outbound prompt to the backend outcome (the fixed parts
of the payload — model, stream flag, temperature — do not vary and are
elided).  Returns the HTTP reply and the resulting file state. -/
def generate_text (reqPrompt : Option String)
    (backend : String → BackendOutcome) (timestamp : String)
    (fs : FileState) (writeOk : Bool) : GenerateReply × FileState :=
  let prompt := effective_prompt reqPrompt
  match backend prompt with
  | .transportError message => (.error 500 message, fs)
  | .httpResponse status body =>
    if status = 200 then
      match body with
      | .error message => (.error 500 message, fs)
      | .ok field =>
        let generated_text := pyStrip (field.getD "")
        match add_conversation prompt generated_text MODEL_NAME timestamp
            fs writeOk with
        | (some conversation, fs2) =>
          (.success generated_text MODEL_NAME (some conversation.id), fs2)
        | (none, fs2) => (.success generated_text MODEL_NAME none, fs2)
    else
      (.error 500 ("Ollama API error: " ++ toString status), fs)

/-- The JSON document returned by GET `/conversations`
(`main.py` lines 159-165). -/
structure ConversationsReply where
  total : Nat
  limit : Int
  offset : Int
  conversations : List ConversationRecord
deriving Repr, DecidableEq

/-- Normalisation of one bound of the Python slice `l[a:b]` for a list of
length `len`: a negative index counts from the end and is clamped at 0, a
non-negative one is clamped at `len`. -/
def pySliceIndex (len : Nat) (i : Int) : Nat :=
  if i < 0 then (max (i + len) 0).toNat else min i.toNat len

/-- The Python slice `l[a:b]` with integer bounds. -/
def pySlice {α : Type} (l : List α) (a b : Int) : List α :=
  (l.take (pySliceIndex l.length b)).drop (pySliceIndex l.length a)

/-- `get_conversations`, the GET `/conversations` handler (`main.py` lines
147-165).  `limitArg`/`offsetArg` are the parsed query parameters, `none`
when missing or unparsable (Flask's `type=int` falls back to the default),
and `conversations[offset:offset + limit]` is the Python slice. -/
def get_conversations (fs : FileState) (limitArg offsetArg : Option Int) :
    ConversationsReply :=
  let conversations := load_conversations fs
  let limit := limitArg.getD 20
  let offset := offsetArg.getD 0
  { total := conversations.length
    limit := limit
    offset := offset
    conversations := pySlice conversations offset (offset + limit) }

/-- The JSON document returned by GET `/conversations/<id>` together with
its HTTP status (`main.py` lines 174-182). -/
inductive ConversationReply where
  | success (conversation : ConversationRecord)
  | notFound (httpStatus : Nat) (message : String)
deriving Repr, DecidableEq

/-- The message of `main.py` line 181. -/
def not_found_message (conversation_id : Nat) : String :=
  "Conversation #" ++ toString conversation_id ++ " not found"

/-- `get_conversation`, the GET `/conversations/<int:id>` handler
(`main.py` lines 167-182): first record whose `id` equals the requested
one, else a 404.  Flask's `<int:...>` converter only matches digit runs,
so the requested id is a `Nat`. -/
def get_conversation (conversation_id : Nat) (fs : FileState) :
    ConversationReply :=
  match (load_conversations fs).find? (fun conv => conv.id == conversation_id) with
  | some conv => .success conv
  | none => .notFound 404 (not_found_message conversation_id)

/-- One run of `add_conversation`, as driven by repeated successful
`/generate` calls: the four strings the Python code feeds it. -/
structure AppendInput where
  prompt : String
  response : String
  model : String
  timestamp : String
deriving Repr, DecidableEq

/-- A sequence of successful appends (every write succeeds), oldest
first. -/
def append_all : List AppendInput → FileState → FileState
  | [], fs => fs
  | e :: rest, fs =>
    append_all rest
      (add_conversation e.prompt e.response e.model e.timestamp fs true).2

/-- A record with its `id` blanked, to compare records up to
renumbering. -/
def eraseId (c : ConversationRecord) : ConversationRecord :=
  { c with id := 0 }

/-- The history produced (oldest first) by a run of successful appends on
top of a history of length `base`, as long as no trim occurs. -/
def expected_history (base : Nat) : List AppendInput → List ConversationRecord
  | [] => []
  | e :: rest =>
    new_record e.prompt e.response e.model e.timestamp base
      :: expected_history (base + 1) rest

/- ### Helper lemmas about the embedded operations -/

theorem renumber_length (l : List ConversationRecord) :
    (renumber l).length = l.length := by
  simp [renumber]

theorem renumber_getElem (l : List ConversationRecord) (i : Nat)
    (hi : i < (renumber l).length) (hi' : i < l.length) :
    (renumber l)[i] = { l[i] with id := i + 1 } := by
  simp [renumber]

theorem add_conversation_stored_of_lt (p r m t : String)
    (l : List ConversationRecord) (h : l.length < 100) :
    add_conversation p r m t (.stored l) true =
      (some (new_record p r m t l.length),
       .stored (l ++ [new_record p r m t l.length])) := by
  have hc : ¬ (l.length + 1 > 100) := by omega
  simp [add_conversation, load_conversations, save_conversations, hc]

theorem add_conversation_stored_of_ge (p r m t : String)
    (l : List ConversationRecord) (h : 100 ≤ l.length) :
    add_conversation p r m t (.stored l) true =
      ((renumber ((l ++ [new_record p r m t l.length]).drop (l.length + 1 - 100))).getLast?,
       .stored (renumber ((l ++ [new_record p r m t l.length]).drop (l.length + 1 - 100)))) := by
  have hc : l.length + 1 > 100 := by omega
  simp [add_conversation, load_conversations, save_conversations, hc]

theorem add_conversation_write_failed (p r m t : String) (fs : FileState) :
    add_conversation p r m t fs false = (none, fs) := by
  simp [add_conversation, save_conversations]

/-- The 200-with-parsed-body path of `generate_text`, by definition. -/
theorem generate_text_success_path (reqPrompt : Option String)
    (f : Option String) (t : String) (fs : FileState) (writeOk : Bool) :
    generate_text reqPrompt (fun _ => .httpResponse 200 (.ok f)) t fs writeOk =
      match add_conversation (effective_prompt reqPrompt) (pyStrip (f.getD ""))
          MODEL_NAME t fs writeOk with
      | (some c, fs2) =>
        (.success (pyStrip (f.getD "")) MODEL_NAME (some c.id), fs2)
      | (none, fs2) =>
        (.success (pyStrip (f.getD "")) MODEL_NAME none, fs2) := rfl

/- ### The claims -/

/-- Claim C3: for every state of the storage file — absent, unreadable, or
holding malformed content — `load_conversations` returns the empty list;
in general it is total and returns either `[]` or the stored records, so
no failure propagates to its caller. -/
theorem claim_C3 :
    load_conversations .absent = [] ∧
    load_conversations .unreadable = [] ∧
    load_conversations .malformed = [] ∧
    ∀ fs : FileState, load_conversations fs = [] ∨
      ∃ l, fs = .stored l ∧ load_conversations fs = l := by
  refine ⟨rfl, rfl, rfl, fun fs => ?_⟩
  cases fs <;> simp [load_conversations]

/-- Claim C5 (counterexample): with `prompt` present but equal to the empty
string, the gateway does NOT substitute the default placeholder — the
record stored after a successful backend round-trip carries the empty
prompt, which differs from `default_prompt`. -/
theorem claim_C5_counterexample :
    generate_text (some "") (fun _ => .httpResponse 200 (.ok (some "ok")))
        "T" (.stored []) true =
      (.success "ok" MODEL_NAME (some 1),
       .stored [{ id := 1, timestamp := "T", prompt := "", response := "ok",
                  model := MODEL_NAME, response_length := 2 }]) ∧
    ("" : String) ≠ default_prompt := by
  exact ⟨rfl, by decide⟩

/-- Claim C5 (amended): the default placeholder prompt is substituted only
when the `prompt` field is absent; a present prompt — including the empty
string — is forwarded unchanged.  When the field is absent, the backend is
called with `default_prompt` and the stored record carries it. -/
theorem claim_C5 :
    effective_prompt none = default_prompt ∧
    (∀ s : String, effective_prompt (some s) = s) ∧
    (∀ t : String,
      generate_text none (fun _ => .httpResponse 200 (.ok (some "ok"))) t
          (.stored []) true =
        (.success "ok" MODEL_NAME (some 1),
         .stored [{ id := 1, timestamp := t, prompt := default_prompt,
                    response := "ok", model := MODEL_NAME,
                    response_length := 2 }])) := by
  exact ⟨rfl, fun s => rfl, fun t => rfl⟩

/-- Claim C9: on a successful backend response whose storage write fails,
the handler still returns a success reply carrying the generated text and
the model identifier, with a null conversation id, and the record is not
reported as stored. -/
theorem claim_C9 (reqPrompt : Option String) (f : Option String)
    (t : String) (fs : FileState) :
    generate_text reqPrompt (fun _ => .httpResponse 200 (.ok f)) t fs false =
      (.success (pyStrip (f.getD "")) MODEL_NAME none, fs) := by
  rw [generate_text_success_path, add_conversation_write_failed]

/-- Claim C4: on a backend error status the handler replies with a failure
carrying that status code; on a transport-level failure (the request raises)
or a malformed backend payload (`response.json()` raises on a 200) it
replies with a failure carrying the error description; in all three cases
the stored history is unchanged. -/
theorem claim_C4 :
    (∀ (reqPrompt : Option String) (status : Nat)
       (body : Except String (Option String)) (t : String) (fs : FileState)
       (writeOk : Bool), status ≠ 200 →
       generate_text reqPrompt (fun _ => .httpResponse status body) t fs writeOk =
         (.error 500 ("Ollama API error: " ++ toString status), fs)) ∧
    (∀ (reqPrompt : Option String) (msg t : String) (fs : FileState)
       (writeOk : Bool),
       generate_text reqPrompt (fun _ => .transportError msg) t fs writeOk =
         (.error 500 msg, fs)) ∧
    (∀ (reqPrompt : Option String) (msg t : String) (fs : FileState)
       (writeOk : Bool),
       generate_text reqPrompt (fun _ => .httpResponse 200 (.error msg)) t fs
           writeOk =
         (.error 500 msg, fs)) := by
  refine ⟨?_, ?_, ?_⟩
  · intro reqPrompt status body t fs writeOk h
    simp [generate_text, h]
  · intro reqPrompt msg t fs writeOk; rfl
  · intro reqPrompt msg t fs writeOk; rfl

/-- Witness for C4: the backend answers HTTP 500 on an empty history — the
handler returns the failure reply carrying 500 and the history is still
empty. -/
theorem claim_C4_witness :
    (500 : Nat) ≠ 200 ∧
    generate_text (some "Hi") (fun _ => .httpResponse 500 (.ok none)) "T"
        (.stored []) true =
      (.error 500 ("Ollama API error: " ++ toString (500 : Nat)), .stored []) :=
  ⟨by decide,
   claim_C4.1 (some "Hi") 500 (.ok none) "T" (.stored []) true (by decide)⟩

/-- Claim C10: a 200 backend reply whose well-formed JSON body lacks the
`response` field is treated as empty generated text: the handler returns a
success reply with `""` and stores a record with empty `response` and
`response_length = 0`. -/
theorem claim_C10 (p t : String) (l : List ConversationRecord)
    (h : l.length < 100) :
    generate_text (some p) (fun _ => .httpResponse 200 (.ok none)) t
        (.stored l) true =
      (.success "" MODEL_NAME (some (l.length + 1)),
       .stored (l ++ [{ id := l.length + 1, timestamp := t, prompt := p,
                        response := "", model := MODEL_NAME,
                        response_length := 0 }])) := by
  rw [generate_text_success_path,
      show effective_prompt (some p) = p from rfl,
      show pyStrip ((none : Option String).getD "") = "" from rfl,
      add_conversation_stored_of_lt p "" MODEL_NAME t l h]
  rfl

/-- Renumbering only rewrites ids: every record of `renumber l` is a record
of `l` with its `id` field replaced. -/
theorem mem_renumber {c : ConversationRecord} {l : List ConversationRecord}
    (h : c ∈ renumber l) :
    ∃ c' ∈ l, c.response = c'.response ∧
      c.response_length = c'.response_length := by
  simp only [renumber, List.mem_map] at h
  obtain ⟨q, hq, rfl⟩ := h
  exact ⟨q.2, List.snd_mem_of_mem_enum hq, rfl, rfl⟩

/-- Claim C6: every record ever stored has `response_length` equal to the
character count of its `response` at the time of the write — `append`
preserves the invariant on the stored file — and the stored response is the
backend text stripped of surrounding whitespace: with prompt `"Hi"` and a
backend answering `" Hello! "` on an empty history, the stored record is
`"Hello!"` with `response_length = 6` and id 1. -/
theorem claim_C6 :
    (∀ (p r m t : String) (fs : FileState) (writeOk : Bool),
       (∀ c ∈ load_conversations fs, c.response_length = c.response.length) →
       ∀ c ∈ load_conversations (add_conversation p r m t fs writeOk).2,
         c.response_length = c.response.length) ∧
    (∀ t : String,
       generate_text (some "Hi")
           (fun _ => .httpResponse 200 (.ok (some " Hello! "))) t
           (.stored []) true =
         (.success "Hello!" MODEL_NAME (some 1),
          .stored [{ id := 1, timestamp := t, prompt := "Hi",
                     response := "Hello!", model := MODEL_NAME,
                     response_length := 6 }])) := by
  constructor
  · intro p r m t fs writeOk hinv c hc
    cases writeOk with
    | false => rw [add_conversation_write_failed] at hc; exact hinv c hc
    | true =>
      simp only [add_conversation, save_conversations, if_pos] at hc
      by_cases hlen :
          (load_conversations fs ++
            [new_record p r m t (load_conversations fs).length]).length > 100
      · rw [if_pos hlen] at hc
        simp only [load_conversations] at hc
        obtain ⟨c', hc', hr, hrl⟩ := mem_renumber hc
        have hc'' := List.mem_of_mem_drop hc'
        rw [hr, hrl]
        rcases List.mem_append.1 hc'' with h1 | h1
        · exact hinv c' h1
        · rcases List.mem_singleton.1 h1 with rfl
          rfl
      · rw [if_neg hlen] at hc
        simp only [load_conversations] at hc
        rcases List.mem_append.1 hc with h1 | h1
        · exact hinv c h1
        · rcases List.mem_singleton.1 h1 with rfl
          rfl
  · intro t; rfl

/-- Witness for C6: the invariant holds on the empty history, and the
append performed there preserves it. -/
theorem claim_C6_witness :
    (∀ c ∈ load_conversations (.stored []),
       c.response_length = c.response.length) ∧
    (∀ c ∈ load_conversations
        (add_conversation "a" "bb" "m" "T" (.stored []) true).2,
       c.response_length = c.response.length) :=
  ⟨by simp [load_conversations],
   claim_C6.1 "a" "bb" "m" "T" (.stored []) true (by simp [load_conversations])⟩

/-- Witness for C10: on the empty history, a 200 reply without a `response`
field stores the empty record with id 1 and length 0. -/
theorem claim_C10_witness :
    ([] : List ConversationRecord).length < 100 ∧
    generate_text (some "x") (fun _ => .httpResponse 200 (.ok none)) "T"
        (.stored []) true =
      (.success "" MODEL_NAME (some (([] : List ConversationRecord).length + 1)),
       .stored ([] ++ [{ id := ([] : List ConversationRecord).length + 1,
                         timestamp := "T", prompt := "x", response := "",
                         model := MODEL_NAME, response_length := 0 }])) :=
  ⟨by decide, claim_C10 "x" "T" [] (by decide)⟩

theorem expected_history_length (base : Nat) (inputs : List AppendInput) :
    (expected_history base inputs).length = inputs.length := by
  induction inputs generalizing base with
  | nil => rfl
  | cons e rest ih => simp [expected_history, ih]

theorem expected_history_getElem (base : Nat) (inputs : List AppendInput)
    (i : Nat) (hi : i < (expected_history base inputs).length)
    (hi' : i < inputs.length) :
    (expected_history base inputs)[i] =
      new_record inputs[i].prompt inputs[i].response inputs[i].model
        inputs[i].timestamp (base + i) := by
  induction inputs generalizing base i with
  | nil => simp at hi'
  | cons e rest ih =>
    cases i with
    | zero => simp [expected_history]
    | succ j =>
      have hj : j < (expected_history (base + 1) rest).length := by
        rw [expected_history_length]
        simpa using hi'
      have hj' : j < rest.length := by simpa using hi'
      have := ih (base + 1) j hj hj'
      simp only [expected_history, List.getElem_cons_succ]
      rw [this, show base + 1 + j = base + (j + 1) by omega]

theorem append_all_stored (inputs : List AppendInput)
    (l : List ConversationRecord) (h : l.length + inputs.length ≤ 100) :
    append_all inputs (.stored l) =
      .stored (l ++ expected_history l.length inputs) := by
  induction inputs generalizing l with
  | nil => simp [append_all, expected_history]
  | cons e rest ih =>
    have hl : l.length < 100 := by
      simp only [List.length_cons] at h; omega
    have step :=
      add_conversation_stored_of_lt e.prompt e.response e.model e.timestamp l hl
    simp only [append_all, step]
    have hlen : (l ++ [new_record e.prompt e.response e.model e.timestamp
        l.length]).length = l.length + 1 := by simp
    rw [ih _ (by rw [hlen]; simp only [List.length_cons] at h; omega), hlen]
    simp [expected_history, List.append_assoc]

/-- Claim C2: starting from an empty history, any sequence of at most 100
successful appends yields a history of the same length whose records carry
ids `1..N` in append order (the i-th stored record is the i-th appended
prompt/response). -/
theorem claim_C2 (inputs : List AppendInput) (h : inputs.length ≤ 100) :
    ∃ final : List ConversationRecord,
      append_all inputs (.stored []) = .stored final ∧
      final.length = inputs.length ∧
      ∀ i (hi : i < final.length) (hi' : i < inputs.length),
        (final.get ⟨i, hi⟩).id = i + 1 ∧
        (final.get ⟨i, hi⟩).prompt = (inputs.get ⟨i, hi'⟩).prompt ∧
        (final.get ⟨i, hi⟩).response = (inputs.get ⟨i, hi'⟩).response := by
  refine ⟨expected_history 0 inputs, ?_, expected_history_length 0 inputs, ?_⟩
  · have := append_all_stored inputs [] (by simpa using h)
    simpa using this
  · intro i hi hi'
    simp [List.get_eq_getElem, expected_history_getElem 0 inputs i hi hi',
      new_record]

/-- Witness for C2: two successful appends on the empty history. -/
theorem claim_C2_witness :
    ([⟨"p1", "r1", "m", "t1"⟩, ⟨"p2", "r2", "m", "t2"⟩] :
        List AppendInput).length ≤ 100 ∧
    ∃ final : List ConversationRecord,
      append_all [⟨"p1", "r1", "m", "t1"⟩, ⟨"p2", "r2", "m", "t2"⟩]
          (.stored []) = .stored final ∧
      final.length = ([⟨"p1", "r1", "m", "t1"⟩, ⟨"p2", "r2", "m", "t2"⟩] :
        List AppendInput).length ∧
      ∀ i (hi : i < final.length)
        (hi' : i < ([⟨"p1", "r1", "m", "t1"⟩, ⟨"p2", "r2", "m", "t2"⟩] :
          List AppendInput).length),
        (final.get ⟨i, hi⟩).id = i + 1 ∧
        (final.get ⟨i, hi⟩).prompt =
          (([⟨"p1", "r1", "m", "t1"⟩, ⟨"p2", "r2", "m", "t2"⟩] :
            List AppendInput).get ⟨i, hi'⟩).prompt ∧
        (final.get ⟨i, hi⟩).response =
          (([⟨"p1", "r1", "m", "t1"⟩, ⟨"p2", "r2", "m", "t2"⟩] :
            List AppendInput).get ⟨i, hi'⟩).response :=
  ⟨by decide,
   claim_C2 [⟨"p1", "r1", "m", "t1"⟩, ⟨"p2", "r2", "m", "t2"⟩] (by decide)⟩

theorem renumber_getLast? (l : List ConversationRecord) (i : Nat)
    (hi : l.length = i + 1) :
    (renumber l).getLast? = some { l.get ⟨i, by omega⟩ with id := i + 1 } := by
  have hi1 : i < (renumber l).length := by rw [renumber_length]; omega
  have hidx : l.length - 1 = i := by omega
  rw [List.getLast?_eq_getElem?, renumber_length, hidx,
    List.getElem?_eq_getElem hi1, renumber_getElem l i hi1 (by omega)]
  rfl

/-- Claim C1: appending to a history holding exactly 100 records keeps the
length at 100, discards the oldest record while preserving the relative
order and contents of the rest, reassigns ids `1..100` in order, and the
record returned by the append carries its final, renumbered id 100. -/
theorem claim_C1 (p r m t : String) (hist : List ConversationRecord)
    (h : hist.length = 100) :
    ∃ rec final,
      add_conversation p r m t (.stored hist) true = (some rec, .stored final) ∧
      final.length = 100 ∧
      rec = { id := 100, timestamp := t, prompt := p, response := r,
              model := m, response_length := r.length } ∧
      (∀ i (hi : i < final.length), (final.get ⟨i, hi⟩).id = i + 1) ∧
      (∀ i (hi' : i + 1 < hist.length) (hi : i < final.length),
        eraseId (final.get ⟨i, hi⟩) = eraseId (hist.get ⟨i + 1, hi'⟩)) ∧
      (∀ h99 : 99 < final.length, final.get ⟨99, h99⟩ = rec) := by
  have hge : 100 ≤ hist.length := h.ge
  have main := add_conversation_stored_of_ge p r m t hist hge
  have hdrop : (hist ++ [new_record p r m t hist.length]).drop
      (hist.length + 1 - 100) =
      hist.drop 1 ++ [new_record p r m t hist.length] := by
    rw [show hist.length + 1 - 100 = 1 by omega,
      List.drop_append_of_le_length (by omega)]
  rw [hdrop] at main
  have hDlen : (hist.drop 1 ++ [new_record p r m t hist.length]).length
      = 100 := by
    simp [List.length_drop, h]
  have hdrop1len : (hist.drop 1).length = 99 := by
    simp [List.length_drop, h]
  have hD99 : (hist.drop 1 ++ [new_record p r m t hist.length]).get
      ⟨99, by omega⟩ = new_record p r m t hist.length := by
    simp only [List.get_eq_getElem]
    rw [List.getElem_append_right (by omega)]
    simp [hdrop1len]
  have hlast := renumber_getLast?
    (hist.drop 1 ++ [new_record p r m t hist.length]) 99 hDlen
  rw [hD99] at hlast
  rw [hlast] at main
  have hfinlen :
      (renumber (hist.drop 1 ++ [new_record p r m t hist.length])).length
      = 100 := by rw [renumber_length, hDlen]
  refine ⟨_, _, main, hfinlen, ?_, ?_, ?_, ?_⟩
  · simp [new_record]
  · intro i hi
    have hi' : i < (hist.drop 1 ++ [new_record p r m t hist.length]).length := by
      omega
    simp only [List.get_eq_getElem]
    rw [renumber_getElem _ i hi hi']
  · intro i hi' hi
    have hiD : i < (hist.drop 1 ++ [new_record p r m t hist.length]).length := by
      omega
    have hi99 : i < (hist.drop 1).length := by omega
    simp only [List.get_eq_getElem]
    rw [renumber_getElem _ i hi hiD]
    rw [List.getElem_append_left hi99]
    simp only [List.getElem_drop]
    simp [eraseId, Nat.add_comm 1 i]
  · intro h99
    have hb : (99 : Nat) <
        (hist.drop 1 ++ [new_record p r m t hist.length]).length := by omega
    simp only [List.get_eq_getElem]
    rw [renumber_getElem _ 99 h99 hb]
    have hD99e : (hist.drop 1 ++ [new_record p r m t hist.length])[99]
        = new_record p r m t hist.length := by
      rw [List.getElem_append_right (by omega)]
      simp [hdrop1len]
    rw [hD99e]

/-- A concrete history of exactly 100 records, used to witness C1. -/
def hundred_history : List ConversationRecord :=
  List.replicate 100
    { id := 1, timestamp := "t0", prompt := "p0", response := "r0",
      model := "m", response_length := 2 }

/-- Witness for C1: appending to a concrete 100-record history. -/
theorem claim_C1_witness :
    hundred_history.length = 100 ∧
    ∃ rec final,
      add_conversation "p" "r" "m" "T" (.stored hundred_history) true =
        (some rec, .stored final) ∧
      final.length = 100 ∧
      rec = { id := 100, timestamp := "T", prompt := "p", response := "r",
              model := "m", response_length := ("r" : String).length } ∧
      (∀ i (hi : i < final.length), (final.get ⟨i, hi⟩).id = i + 1) ∧
      (∀ i (hi' : i + 1 < hundred_history.length) (hi : i < final.length),
        eraseId (final.get ⟨i, hi⟩) = eraseId (hundred_history.get ⟨i + 1, hi'⟩)) ∧
      (∀ h99 : 99 < final.length, final.get ⟨99, h99⟩ = rec) :=
  ⟨by simp [hundred_history],
   claim_C1 "p" "r" "m" "T" hundred_history (by simp [hundred_history])⟩

theorem find?_of_ids (l : List ConversationRecord) (base cid : Nat)
    (hids : ∀ i (hi : i < l.length), (l.get ⟨i, hi⟩).id = base + i + 1) :
    (base + 1 ≤ cid → cid ≤ base + l.length →
      ∃ hh : cid - base - 1 < l.length,
        l.find? (fun conv => conv.id == cid) =
          some (l.get ⟨cid - base - 1, hh⟩)) ∧
    ((cid < base + 1 ∨ base + l.length < cid) →
      l.find? (fun conv => conv.id == cid) = none) := by
  induction l generalizing base with
  | nil =>
    refine ⟨fun h1 h2 => ?_, fun _ => rfl⟩
    simp only [List.length_nil] at h2
    omega
  | cons a rest ih =>
    have ha : a.id = base + 1 := by
      have := hids 0 (by simp)
      simpa using this
    have hrest : ∀ i (hi : i < rest.length),
        (rest.get ⟨i, hi⟩).id = (base + 1) + i + 1 := by
      intro i hi
      have := hids (i + 1) (by simpa using Nat.succ_lt_succ hi)
      simp only [List.get_eq_getElem, List.getElem_cons_succ] at this ⊢
      rw [this]; omega
    have ihr := ih (base + 1) hrest
    by_cases hcid : base + 1 = cid
    · constructor
      · intro h1 h2
        have h0 : cid - base - 1 = 0 := by omega
        have hfind : (a :: rest).find? (fun conv => conv.id == cid) =
            some a := List.find?_cons_of_pos rest (by simp [ha, hcid])
        refine ⟨by simp only [List.length_cons]; omega, ?_⟩
        rw [hfind]
        simp [List.get_eq_getElem, h0]
      · intro hout
        simp only [List.length_cons] at hout
        omega
    · have hfind : (a :: rest).find? (fun conv => conv.id == cid) =
          rest.find? (fun conv => conv.id == cid) :=
        List.find?_cons_of_neg rest (by simp [ha, hcid])
      constructor
      · intro h1 h2
        simp only [List.length_cons] at h2
        have h1' : (base + 1) + 1 ≤ cid := by omega
        have h2' : cid ≤ (base + 1) + rest.length := by omega
        obtain ⟨hh, hfr⟩ := ihr.1 h1' h2'
        have hidx : cid - base - 1 = (cid - (base + 1) - 1) + 1 := by omega
        refine ⟨by simp only [List.length_cons]; omega, ?_⟩
        rw [hfind, hfr]
        simp only [List.get_eq_getElem, hidx, List.getElem_cons_succ]
      · intro hout
        simp only [List.length_cons] at hout
        rw [hfind]
        refine ihr.2 ?_
        omega

/-- Claim C7: on a history whose ids are exactly the 1-based positions (the
invariant maintained by the log), GET `/conversations/<id>` returns the
record whose `id` equals the requested id when it lies in `1..count`, and
a 404 reply when it lies outside. -/
theorem claim_C7 (hist : List ConversationRecord) (cid : Nat)
    (hids : ∀ i (hi : i < hist.length), (hist.get ⟨i, hi⟩).id = i + 1) :
    (1 ≤ cid → cid ≤ hist.length →
      ∃ hh : cid - 1 < hist.length,
        get_conversation cid (.stored hist) =
          .success (hist.get ⟨cid - 1, hh⟩) ∧
        (hist.get ⟨cid - 1, hh⟩).id = cid) ∧
    (¬(1 ≤ cid ∧ cid ≤ hist.length) →
      get_conversation cid (.stored hist) =
        .notFound 404 (not_found_message cid)) := by
  have base := find?_of_ids hist 0 cid (by intro i hi; simpa using hids i hi)
  simp only [Nat.zero_add, Nat.sub_zero] at base
  constructor
  · intro h1 h2
    obtain ⟨hh, hfr⟩ := base.1 (by omega) (by omega)
    refine ⟨hh, ?_, ?_⟩
    · unfold get_conversation
      simp only [load_conversations, hfr]
    · have := hids (cid - 1) hh
      rw [this]; omega
  · intro hout
    have hfr := base.2 (by omega)
    unfold get_conversation
    simp only [load_conversations, hfr]

/-- A concrete two-record well-formed history, used to witness C7. -/
def two_history : List ConversationRecord :=
  [{ id := 1, timestamp := "t1", prompt := "p1", response := "r1",
     model := "m", response_length := 2 },
   { id := 2, timestamp := "t2", prompt := "p2", response := "r2",
     model := "m", response_length := 2 }]

/-- Witness for C7: on `two_history`, requesting id 2 returns the second
record. -/
theorem claim_C7_witness :
    (∀ i (hi : i < two_history.length),
      (two_history.get ⟨i, hi⟩).id = i + 1) ∧
    ((1 ≤ 2 → 2 ≤ two_history.length →
      ∃ hh : 2 - 1 < two_history.length,
        get_conversation 2 (.stored two_history) =
          .success (two_history.get ⟨2 - 1, hh⟩) ∧
        (two_history.get ⟨2 - 1, hh⟩).id = 2) ∧
    (¬(1 ≤ 2 ∧ 2 ≤ two_history.length) →
      get_conversation 2 (.stored two_history) =
        .notFound 404 (not_found_message 2))) :=
  ⟨by decide, claim_C7 two_history 2 (by decide)⟩

theorem pySlice_natCast {α : Type} (l : List α) (o lim : Nat) :
    pySlice l (o : Int) ((o : Int) + (lim : Int)) = (l.drop o).take lim := by
  have h1 : ¬((o : Int) < 0) := by omega
  have h2 : ¬((o : Int) + (lim : Int) < 0) := by omega
  have e1 : ((o : Int) + (lim : Int)).toNat = o + lim := by omega
  have e2 : ((o : Int)).toNat = o := by omega
  unfold pySlice pySliceIndex
  rw [if_neg h2, if_neg h1, e1, e2]
  rcases Nat.le_total o l.length with ho | ho
  · rw [Nat.min_eq_left ho, List.drop_take, List.take_eq_take]
    simp only [List.length_drop]
    omega
  · rw [Nat.min_eq_right ho]
    have hnil1 : List.drop l.length (List.take (min (o + lim) l.length) l)
        = [] :=
      List.drop_eq_nil_of_le (by simp only [List.length_take]; omega)
    have hnil2 : List.drop o l = [] := List.drop_eq_nil_of_le ho
    rw [hnil1, hnil2, List.take_nil]

/-- Claim C8: GET `/conversations` returns the contiguous slice of the
history starting at `offset` with at most `limit` records, together with
the total history count; `limit` defaults to 20 and `offset` to 0; with
`limit=1` and `offset=1` on a 3-record history it returns exactly the
second record and `total = 3`. -/
theorem claim_C8 :
    (∀ (hist : List ConversationRecord) (lim off : Nat),
      get_conversations (.stored hist) (some (lim : Int)) (some (off : Int)) =
        { total := hist.length, limit := (lim : Int), offset := (off : Int),
          conversations := (hist.drop off).take lim }) ∧
    (∀ fs : FileState,
      get_conversations fs none none =
        get_conversations fs (some 20) (some 0)) ∧
    (∀ a b c : ConversationRecord,
      get_conversations (.stored [a, b, c]) (some 1) (some 1) =
        { total := 3, limit := 1, offset := 1, conversations := [b] }) := by
  refine ⟨?_, fun fs => rfl, fun a b c => rfl⟩
  intro hist lim off
  unfold get_conversations
  simp only [Option.getD_some, load_conversations]
  rw [pySlice_natCast]

end BasicLocalAI
